import Mathlib

/-!
# Verification of the `AtomicWaker` single-slot wake primitive

This development embeds `futures-core/src/task/__internal/atomic_ptr_waker.rs`
into Lean and proves the documented properties of its lock-free state machine.

Modelling choices:

* The atomic word `vtable : AtomicPtr<RawWakerVTable>` takes four classes of
  values: `null_mut()`, the address of `REGISTERING_TABLE`, the address of
  `TAKING_TABLE`, and the address of a real waker's vtable.  The two sentinel
  tables are statically allocated and therefore distinct from both null and
  every real vtable address, so the word is modelled as the inductive `VPtr`
  with one constructor per class (a real vtable address is an arbitrary `Nat`).
* A `Waker` is its `(data, vtable)` pair of raw pointers, modelled as two
  naturals.  Two wakers are equivalent exactly when both components agree,
  which is how `Waker::from_raw (RawWaker::new data vtable)` reconstructs one.
* The side effects performed through a waker's vtable — `clone`, `wake`
  (invocation) and `drop` (release without invoking) — are recorded as an
  `Event` trace returned alongside the new state.
* `register` is the two-phase `begin_register` / `end_register` composition;
  each atomic access to the `vtable` word is one step of the small-step
  relation used for the concurrent theorems (`step1` for a `register` thread,
  `step2` for a `take`/`wake` thread), and the sequential functions compose
  those same effects when no interference occurs.
-/

set_option autoImplicit false

namespace AtomicPtrWaker

/-- Value classes of the atomic `vtable` word: null, the two static lock
sentinels `REGISTERING_TABLE` / `TAKING_TABLE`, or the address of a real
waker's vtable (the sentinels are statically allocated, hence never equal to a
real vtable address or to null). -/
inductive VPtr where
  | null
  | registering
  | taking
  | table (t : Nat)
deriving DecidableEq

/-- A raw waker: its data (context) pointer and the address of its vtable. -/
structure Waker where
  data : Nat
  table : Nat
deriving DecidableEq

/-- Side effects performed through a waker's vtable: `cloneE` for `clone`,
`wakeE` for an invocation (`wake` / `wake_by_ref`), `releaseE` for a drop
without invocation. -/
inductive Event where
  | cloneE (w : Waker)
  | wakeE (w : Waker)
  | releaseE (w : Waker)
deriving DecidableEq

/-- The `AtomicWaker` state: the `data: UnsafeCell<*const ()>` cell and the
`vtable: AtomicPtr<RawWakerVTable>` word. -/
structure Slot where
  data : Nat
  vt : VPtr
deriving DecidableEq

/-- `AtomicWaker::new()`: null data pointer, null vtable word. -/
def newSlot : Slot := { data := 0, vt := .null }

/-- Phase 1 of `register`: swap the vtable word to `REGISTERING` and inspect
the previous value.  `Err(false)` on losing to another register, `Err(true)`
on losing to a taker; on success a previously stored waker (non-null previous
value) is reconstructed and dropped, which releases it. -/
def begin_register (s : Slot) : Except Bool Unit × Slot × List Event :=
  match s.vt with
  | .registering => (.error false, { s with vt := .registering }, [])
  | .taking => (.error true, { s with vt := .registering }, [])
  | .null => (.ok (), { s with vt := .registering }, [])
  | .table t => (.ok (), { s with vt := .registering }, [.releaseE ⟨s.data, t⟩])

/-- Phase 2 of `register`: clone the waker, write its data pointer into the
cell, then compare-exchange the vtable word from `REGISTERING` to the clone's
real vtable.  On success the clone is forgotten (now owned by the slot); on
failure (a racing taker overwrote the lock) the word is swapped to null and
the clone is dropped, releasing it; the returned `Bool` reports whether the
caller must self-wake. -/
def end_register (h : Waker) (s : Slot) : Bool × Slot × List Event :=
  match s.vt with
  | .registering => (false, { data := h.data, vt := .table h.table }, [.cloneE h])
  | _ => (true, { data := h.data, vt := .null }, [.cloneE h, .releaseE h])

/-- `AtomicWaker::register`: run both phases; on `Err(_)` from phase 1 or a
`true` from phase 2, `wake_by_ref` the caller's waker. -/
def register (h : Waker) (s : Slot) : Slot × List Event :=
  match begin_register s with
  | (.ok _, s1, e1) =>
    match end_register h s1 with
    | (true, s2, e2) => (s2, e1 ++ e2 ++ [.wakeE h])
    | (false, s2, e2) => (s2, e1 ++ e2)
  | (.error _, s1, e1) => (s1, e1 ++ [.wakeE h])

/-- `AtomicWaker::take`: swap the vtable word to `TAKING`; on losing to either
lock sentinel return `none` leaving the word to the winner; otherwise
reconstruct the stored waker (if the previous value was non-null) and store
null to unlock.  No vtable operation of any waker is performed, so no events
are produced. -/
def take (s : Slot) : Option Waker × Slot :=
  match s.vt with
  | .registering => (none, { s with vt := .taking })
  | .taking => (none, { s with vt := .taking })
  | .null => (none, { s with vt := .null })
  | .table t => (some ⟨s.data, t⟩, { s with vt := .null })

/-- `AtomicWaker::wake`: `take`, and invoke the obtained waker if any. -/
def wake (s : Slot) : Slot × List Event :=
  match take s with
  | (some w, s1) => (s1, [.wakeE w])
  | (none, s1) => (s1, [])

/-- Spec-side description of `wake` (section 4.1 of the design document):
the composition of `take()` followed, if a handle was obtained, by invoking it
exactly once, and by nothing otherwise. -/
def wake_spec (s : Slot) : Slot × List Event :=
  let r := take s
  (r.2, (r.1.map (fun w => [Event.wakeE w])).getD [])

/-- `impl Drop for AtomicWaker`: a final `take`; its result, if any, is
dropped without being invoked, which releases it. -/
def dropSlot (s : Slot) : Slot × List Event :=
  match take s with
  | (some w, s1) => (s1, [.releaseE w])
  | (none, s1) => (s1, [])

/-! ## Small-step interleaving semantics

One `register(h)` thread and one `take()`/`wake()` thread running against the
same slot.  Each step performs at most one atomic access to the vtable word;
purely local actions (cloning, dropping, invoking, reading the data cell while
holding the corresponding lock) are attached to the step of the atomic access
they follow.  `a1`/`a2` count the atomic accesses each thread performs. -/

/-- Program counter of the `register` thread: `r0` before the locking swap,
`r1` before the clone and data write, `r2` before the publishing
compare-exchange, `r3` before the unlocking swap of the failure path. -/
inductive RPC where
  | r0
  | r1
  | r2
  | r3
  | rdone
deriving DecidableEq

/-- Program counter of the `take`/`wake` thread: `t0` before the locking swap,
`t1` before the unlocking null store. -/
inductive TPC where
  | t0
  | t1
  | tdone
deriving DecidableEq

/-- A configuration of the two-thread system: the shared slot fields, both
program counters, the taker's pending result, both event traces, and both
atomic-access counters. -/
structure Config where
  data : Nat
  vt : VPtr
  pc1 : RPC
  pc2 : TPC
  res2 : Option Waker
  tr1 : List Event
  tr2 : List Event
  a1 : Nat
  a2 : Nat
deriving DecidableEq

/-- One step of the `register h` thread.  `r0` is `begin_register`'s swap
(losing paths self-wake and finish), `r1` the clone plus data write, `r2` the
compare-exchange of `end_register` (success publishes and finishes), `r3` the
failure path's unlocking swap followed by dropping the clone and the
self-wake. -/
def step1 (h : Waker) (c : Config) : Config :=
  match c.pc1 with
  | .r0 =>
    match c.vt with
    | .registering =>
      { c with vt := .registering, pc1 := .rdone, tr1 := c.tr1 ++ [.wakeE h], a1 := c.a1 + 1 }
    | .taking =>
      { c with vt := .registering, pc1 := .rdone, tr1 := c.tr1 ++ [.wakeE h], a1 := c.a1 + 1 }
    | .null =>
      { c with vt := .registering, pc1 := .r1, a1 := c.a1 + 1 }
    | .table t =>
      { c with vt := .registering, pc1 := .r1, tr1 := c.tr1 ++ [.releaseE ⟨c.data, t⟩], a1 := c.a1 + 1 }
  | .r1 => { c with data := h.data, pc1 := .r2, tr1 := c.tr1 ++ [.cloneE h] }
  | .r2 =>
    match c.vt with
    | .registering => { c with vt := .table h.table, pc1 := .rdone, a1 := c.a1 + 1 }
    | _ => { c with pc1 := .r3, a1 := c.a1 + 1 }
  | .r3 =>
    { c with vt := .null, pc1 := .rdone, tr1 := c.tr1 ++ [.releaseE h, .wakeE h], a1 := c.a1 + 1 }
  | .rdone => c

/-- One step of the `take`/`wake` thread (`wk` selects `wake`).  `t0` is the
locking swap (losing paths finish with `none`, winning paths read the data
cell under the lock), `t1` the unlocking null store followed, for `wake`, by
invoking the obtained waker. -/
def step2 (wk : Bool) (c : Config) : Config :=
  match c.pc2 with
  | .t0 =>
    match c.vt with
    | .registering => { c with vt := .taking, pc2 := .tdone, res2 := none, a2 := c.a2 + 1 }
    | .taking => { c with vt := .taking, pc2 := .tdone, res2 := none, a2 := c.a2 + 1 }
    | .null => { c with vt := .taking, pc2 := .t1, res2 := none, a2 := c.a2 + 1 }
    | .table t => { c with vt := .taking, pc2 := .t1, res2 := some ⟨c.data, t⟩, a2 := c.a2 + 1 }
  | .t1 =>
    let tr :=
      if wk then
        (match c.res2 with
         | some w => c.tr2 ++ [.wakeE w]
         | none => c.tr2)
      else c.tr2
    { c with vt := .null, pc2 := .tdone, a2 := c.a2 + 1, tr2 := tr }
  | .tdone => c

/-- Run a schedule: `true` entries step the `register` thread, `false` entries
the `take`/`wake` thread; a finished thread's step is a no-op. -/
def run (h : Waker) (wk : Bool) (sched : List Bool) (c : Config) : Config :=
  sched.foldl (fun c b => if b then step1 h c else step2 wk c) c

/-- The vtable word holds no lock sentinel: it is null or a real vtable
address. -/
def ValidV (v : VPtr) : Prop :=
  v = .null ∨ ∃ t, v = .table t

instance (v : VPtr) : Decidable (ValidV v) := by
  unfold ValidV
  cases v
  case null => exact isTrue (Or.inl rfl)
  case registering => exact isFalse (by rintro (h | ⟨t, h⟩) <;> cases h)
  case taking => exact isFalse (by rintro (h | ⟨t, h⟩) <;> cases h)
  case table t => exact isTrue (Or.inr ⟨t, rfl⟩)

/-! ## Sequential theorems -/

/-- Claim C1: for every slot state and every handle `h`, after `register h`
returns, either a clone of `h` is durably stored in the slot (and a later
`take` retrieves it), or `h` has been invoked at least once during the
`register` call. -/
theorem register_no_lost_interest (h : Waker) (s : Slot) :
    ((register h s).1 = { data := h.data, vt := .table h.table } ∧
      (take (register h s).1).1 = some h) ∨
    Event.wakeE h ∈ (register h s).2 := by
  obtain ⟨d, v⟩ := s
  cases v <;> simp [register, begin_register, end_register, take]

/-- Claim C2, counterexample: a `register` whose locking swap observes
`REGISTERING` is not a no-op — it invokes the caller's handle before
returning. -/
theorem register_lose_race_cex :
    Event.wakeE ⟨1, 5⟩ ∈ (register ⟨1, 5⟩ { data := 0, vt := .registering }).2 := by
  decide

/-- Claim C2, amended: when `begin_register`'s swap observes `REGISTERING`,
the call stores no handle and leaves the discriminator unchanged, but it does
invoke the caller's own handle (self-wake) exactly once before returning. -/
theorem register_lose_race_self_wake (h : Waker) (s : Slot) (hs : s.vt = .registering) :
    register h s = (s, [.wakeE h]) := by
  obtain ⟨d, v⟩ := s
  cases hs
  rfl

/-- Claim C2, amended, witness. -/
theorem register_lose_race_self_wake_witness :
    register ⟨1, 5⟩ { data := 0, vt := .registering } =
      ({ data := 0, vt := .registering }, [Event.wakeE ⟨1, 5⟩]) :=
  register_lose_race_self_wake ⟨1, 5⟩ { data := 0, vt := .registering } rfl

/-- Claim C3: when `end_register`'s compare-exchange fails (the word holds
`TAKING`, the only value a racing `take` can have left), it reports `true`
and the register thread swaps the word to null, drops the clone and invokes
the handle (steps `r2`, `r3` of the interleaved semantics); on success the
clone becomes the stored value and the lock is released atomically with
publishing it. -/
theorem end_register_race_resolution (h : Waker) (s u : Slot) (c : Config)
    (hs : s.vt = .taking) (hu : u.vt = .registering)
    (hc : c.pc1 = .r2) (hcv : c.vt = .taking) :
    end_register h s = (true, { data := h.data, vt := .null }, [.cloneE h, .releaseE h]) ∧
    end_register h u = (false, { data := h.data, vt := .table h.table }, [.cloneE h]) ∧
    (step1 h (step1 h c)).pc1 = .rdone ∧ (step1 h (step1 h c)).vt = .null ∧
    (step1 h (step1 h c)).tr1 = c.tr1 ++ [.releaseE h, .wakeE h] := by
  obtain ⟨ds, vs⟩ := s
  obtain ⟨du, vu⟩ := u
  obtain ⟨dc, vc, p1, p2, r2, t1, t2, a1, a2⟩ := c
  cases hs
  cases hu
  cases hc
  cases hcv
  exact ⟨rfl, rfl, rfl, rfl, rfl⟩

/-- Claim C3, witness. -/
theorem end_register_race_resolution_witness :
    end_register ⟨1, 5⟩ { data := 0, vt := .taking } =
        (true, { data := 1, vt := .null }, [.cloneE ⟨1, 5⟩, .releaseE ⟨1, 5⟩]) ∧
      end_register ⟨1, 5⟩ { data := 0, vt := .registering } =
        (false, { data := 1, vt := .table 5 }, [.cloneE ⟨1, 5⟩]) ∧
      (step1 ⟨1, 5⟩ (step1 ⟨1, 5⟩ ⟨0, .taking, .r2, .tdone, none, [], [], 0, 0⟩)).pc1 = .rdone ∧
      (step1 ⟨1, 5⟩ (step1 ⟨1, 5⟩ ⟨0, .taking, .r2, .tdone, none, [], [], 0, 0⟩)).vt = .null ∧
      (step1 ⟨1, 5⟩ (step1 ⟨1, 5⟩ ⟨0, .taking, .r2, .tdone, none, [], [], 0, 0⟩)).tr1 =
        [] ++ [.releaseE ⟨1, 5⟩, .wakeE ⟨1, 5⟩] :=
  end_register_race_resolution ⟨1, 5⟩ { data := 0, vt := .taking }
    { data := 0, vt := .registering } ⟨0, .taking, .r2, .tdone, none, [], [], 0, 0⟩
    rfl rfl rfl rfl

/-- Claim C5: sequentially from an empty slot, `register h` then `take`
returns a handle equal to `h`, a second `take` returns nothing and leaves the
slot empty, and `take` on an empty slot returns nothing and leaves the slot
unchanged. -/
theorem sequential_register_take_take (h : Waker) (s : Slot) (hs : s.vt = .null) :
    (take (register h s).1).1 = some h ∧
    take (take (register h s).1).2 = (none, (take (register h s).1).2) ∧
    ((take (register h s).1).2).vt = .null ∧
    take s = (none, s) := by
  obtain ⟨d, v⟩ := s
  cases hs
  exact ⟨rfl, rfl, rfl, rfl⟩

/-- Claim C5, witness. -/
theorem sequential_register_take_take_witness :
    (take (register ⟨1, 5⟩ { data := 0, vt := .null }).1).1 = some ⟨1, 5⟩ ∧
      take (take (register ⟨1, 5⟩ { data := 0, vt := .null }).1).2 =
        (none, (take (register ⟨1, 5⟩ { data := 0, vt := .null }).1).2) ∧
      ((take (register ⟨1, 5⟩ { data := 0, vt := .null }).1).2).vt = .null ∧
      take { data := 0, vt := .null } = (none, { data := 0, vt := .null }) :=
  sequential_register_take_take ⟨1, 5⟩ { data := 0, vt := .null } rfl

/-- Claim C6: sequentially from an empty slot, `register h1` then
`register h2` releases `h1` exactly once across both calls, never invokes
`h1`, clones `h2`, and a subsequent `take` yields a handle equal to `h2`. -/
theorem overwrite_releases_old (h1 h2 : Waker) (s : Slot) (hs : s.vt = .null) :
    ((register h1 s).2 ++ (register h2 (register h1 s).1).2).count (.releaseE h1) = 1 ∧
    Event.wakeE h1 ∉ (register h1 s).2 ++ (register h2 (register h1 s).1).2 ∧
    Event.cloneE h2 ∈ (register h2 (register h1 s).1).2 ∧
    (take (register h2 (register h1 s).1).1).1 = some h2 := by
  obtain ⟨d, v⟩ := s
  cases hs
  simp [register, begin_register, end_register, take, List.count_cons]

/-- Claim C6, witness. -/
theorem overwrite_releases_old_witness :
    ((register ⟨1, 5⟩ { data := 0, vt := .null }).2 ++
        (register ⟨2, 6⟩ (register ⟨1, 5⟩ { data := 0, vt := .null }).1).2).count
        (.releaseE ⟨1, 5⟩) = 1 ∧
      Event.wakeE ⟨1, 5⟩ ∉
        (register ⟨1, 5⟩ { data := 0, vt := .null }).2 ++
          (register ⟨2, 6⟩ (register ⟨1, 5⟩ { data := 0, vt := .null }).1).2 ∧
      Event.cloneE ⟨2, 6⟩ ∈ (register ⟨2, 6⟩ (register ⟨1, 5⟩ { data := 0, vt := .null }).1).2 ∧
      (take (register ⟨2, 6⟩ (register ⟨1, 5⟩ { data := 0, vt := .null }).1).1).1 =
        some ⟨2, 6⟩ :=
  overwrite_releases_old ⟨1, 5⟩ ⟨2, 6⟩ { data := 0, vt := .null } rfl

/-- Claim C7: dropping a slot that still holds a stored handle releases that
handle (leaving the slot empty) and never invokes any handle — the destructor
never triggers a wakeup, from any state. -/
theorem drop_releases_never_wakes (s : Slot) (t : Nat) (hs : s.vt = .table t) :
    dropSlot s = ({ data := s.data, vt := .null }, [.releaseE ⟨s.data, t⟩]) ∧
    ∀ (s1 : Slot) (w : Waker), Event.wakeE w ∉ (dropSlot s1).2 := by
  constructor
  · obtain ⟨d, v⟩ := s
    cases hs
    rfl
  · intro s1 w
    obtain ⟨d1, v1⟩ := s1
    cases v1 <;> simp [dropSlot, take]

/-- Claim C7, witness. -/
theorem drop_releases_never_wakes_witness :
    dropSlot { data := 3, vt := .table 5 } =
        ({ data := 3, vt := .null }, [Event.releaseE ⟨3, 5⟩]) ∧
      ∀ (s1 : Slot) (w : Waker), Event.wakeE w ∉ (dropSlot s1).2 :=
  drop_releases_never_wakes { data := 3, vt := .table 5 } 5 rfl

/-- Claim C8: `wake` equals the spec-side composition `take` then invoke; when
`take` yields a handle the invocation happens exactly once, when it yields
nothing no invocation happens; and this is the only path by which the slot
invokes a stored handle — `register` only ever invokes its own argument
(self-wake) and `dropSlot` invokes nothing. -/
theorem wake_refines_take_then_invoke (s s1 s2 : Slot) (h w : Waker)
    (h1 : (take s1).1 = some w) (h2 : (take s2).1 = none) :
    wake s = wake_spec s ∧
    (wake s1).2 = [.wakeE w] ∧ (wake s2).2 = [] ∧
    (∀ u, Event.wakeE u ∈ (register h s).2 → u = h) ∧
    (∀ u, Event.wakeE u ∉ (dropSlot s).2) := by
  refine ⟨?_, ?_, ?_, ?_, ?_⟩
  · obtain ⟨d, v⟩ := s
    cases v <;> rfl
  · obtain ⟨d1, v1⟩ := s1
    cases v1 <;> simp_all [wake, take]
  · obtain ⟨d2, v2⟩ := s2
    cases v2 <;> simp_all [wake, take]
  · obtain ⟨d, v⟩ := s
    intro u
    cases v <;> simp [register, begin_register, end_register]
  · obtain ⟨d, v⟩ := s
    intro u
    cases v <;> simp [dropSlot, take]

/-- Claim C8, witness. -/
theorem wake_refines_take_then_invoke_witness :
    wake { data := 0, vt := .null } = wake_spec { data := 0, vt := .null } ∧
      (wake { data := 1, vt := .table 5 }).2 = [Event.wakeE ⟨1, 5⟩] ∧
      (wake { data := 0, vt := .null }).2 = [] ∧
      (∀ u, Event.wakeE u ∈ (register ⟨1, 5⟩ { data := 0, vt := .null }).2 → u = ⟨1, 5⟩) ∧
      (∀ u, Event.wakeE u ∉ (dropSlot { data := 0, vt := .null }).2) :=
  wake_refines_take_then_invoke { data := 0, vt := .null } { data := 1, vt := .table 5 }
    { data := 0, vt := .null } ⟨1, 5⟩ ⟨1, 5⟩ rfl rfl

/-- Claim C10: starting from any unlocked state (null or a real table
address), no sequential operation ever observes a lock sentinel: the slot is
born empty, `begin_register` succeeds (no lose-race branch), `register h`
leaves exactly `h` stored (table word is `h`'s vtable and the data cell is
`h`'s context), and `take`, `wake` and `dropSlot` all leave the word null —
so the word after every complete sequential operation is again unlocked. -/
theorem sequential_discriminator_invariant (h : Waker) (s : Slot) (hs : ValidV s.vt) :
    ValidV newSlot.vt ∧
    (s.vt ≠ .registering ∧ s.vt ≠ .taking) ∧
    (begin_register s).1 = .ok () ∧
    (register h s).1 = { data := h.data, vt := .table h.table } ∧
    ValidV (register h s).1.vt ∧
    (take s).2.vt = .null ∧
    (wake s).1.vt = .null ∧
    (dropSlot s).1.vt = .null := by
  obtain ⟨d, v⟩ := s
  obtain rfl | ⟨t, rfl⟩ := hs <;>
    exact ⟨Or.inl rfl, by simp, rfl, rfl, Or.inr ⟨h.table, rfl⟩, rfl, rfl, rfl⟩

/-- Claim C10, witness. -/
theorem sequential_discriminator_invariant_witness :
    ValidV newSlot.vt ∧
      (Slot.vt { data := 7, vt := .table 9 } ≠ .registering ∧
        Slot.vt { data := 7, vt := .table 9 } ≠ .taking) ∧
      (begin_register { data := 7, vt := .table 9 }).1 = .ok () ∧
      (register ⟨1, 5⟩ { data := 7, vt := .table 9 }).1 = { data := 1, vt := .table 5 } ∧
      ValidV (register ⟨1, 5⟩ { data := 7, vt := .table 9 }).1.vt ∧
      (take { data := 7, vt := .table 9 }).2.vt = .null ∧
      (wake { data := 7, vt := .table 9 }).1.vt = .null ∧
      (dropSlot { data := 7, vt := .table 9 }).1.vt = .null :=
  sequential_discriminator_invariant ⟨1, 5⟩ { data := 7, vt := .table 9 }
    (Or.inr ⟨9, rfl⟩)

/-! ## Concurrent theorems: one `register` thread against one `take`/`wake`
thread

`NoLost h c` is the no-lost-wakeup outcome for `register h`: the register
thread invoked `h` before returning, or the taker thread retrieved a handle
equal to `h`, or a clone of `h` is left stored in the slot for a later `take`
to find. -/

/-- No-lost-wakeup outcome for `register h` in configuration `c`. -/
def NoLost (h : Waker) (c : Config) : Prop :=
  Event.wakeE h ∈ c.tr1 ∨ c.res2 = some h ∨ (c.vt = .table h.table ∧ c.data = h.data)

/-- Inductive invariant of the two-thread system `register h` versus
`take`/`wake`, starting from an unlocked slot: a disjunction over the
reachable configuration shapes, ending in `NoLost` once both threads have
finished. -/
def Inv (h : Waker) (c : Config) : Prop :=
  (∃ d r e f a b, c = ⟨d, .null, .r0, .t0, r, e, f, a, b⟩) ∨
  (∃ d u r e f a b, c = ⟨d, .table u, .r0, .t0, r, e, f, a, b⟩) ∨
  (∃ d r e f a b, c = ⟨d, .registering, .r1, .t0, r, e, f, a, b⟩) ∨
  (∃ r e f a b, c = ⟨h.data, .registering, .r2, .t0, r, e, f, a, b⟩) ∨
  (∃ r e f a b, c = ⟨h.data, .table h.table, .rdone, .t0, r, e, f, a, b⟩) ∨
  (∃ d v e f a b, c = ⟨d, v, .rdone, .t1, some h, e, f, a, b⟩) ∨
  (∃ d v r e f a b, Event.wakeE h ∈ e ∧ c = ⟨d, v, .rdone, .t1, r, e, f, a, b⟩) ∨
  (∃ d r e f a b, c = ⟨d, .taking, .r0, .t1, r, e, f, a, b⟩) ∨
  (∃ d r e f a b, c = ⟨d, .null, .r0, .tdone, r, e, f, a, b⟩) ∨
  (∃ d r e f a b, c = ⟨d, .registering, .r1, .tdone, r, e, f, a, b⟩) ∨
  (∃ r e f a b, c = ⟨h.data, .registering, .r2, .tdone, r, e, f, a, b⟩) ∨
  (∃ d r e f a b, c = ⟨d, .taking, .r1, .tdone, r, e, f, a, b⟩) ∨
  (∃ d r e f a b, c = ⟨d, .taking, .r2, .tdone, r, e, f, a, b⟩) ∨
  (∃ d v r e f a b, c = ⟨d, v, .r3, .tdone, r, e, f, a, b⟩) ∨
  (∃ d v r e f a b, NoLost h ⟨d, v, .rdone, .tdone, r, e, f, a, b⟩ ∧
    c = ⟨d, v, .rdone, .tdone, r, e, f, a, b⟩)

lemma inv1 (h : Waker) {d : Nat} {r : Option Waker} {e f : List Event} {a b : Nat} :
    Inv h ⟨d, .null, .r0, .t0, r, e, f, a, b⟩ :=
  Or.inl ⟨d, r, e, f, a, b, rfl⟩

lemma inv2 (h : Waker) {d u : Nat} {r : Option Waker} {e f : List Event} {a b : Nat} :
    Inv h ⟨d, .table u, .r0, .t0, r, e, f, a, b⟩ :=
  Or.inr (Or.inl ⟨d, u, r, e, f, a, b, rfl⟩)

lemma inv3 (h : Waker) {d : Nat} {r : Option Waker} {e f : List Event} {a b : Nat} :
    Inv h ⟨d, .registering, .r1, .t0, r, e, f, a, b⟩ :=
  Or.inr (Or.inr (Or.inl ⟨d, r, e, f, a, b, rfl⟩))

lemma inv4 (h : Waker) {r : Option Waker} {e f : List Event} {a b : Nat} :
    Inv h ⟨h.data, .registering, .r2, .t0, r, e, f, a, b⟩ :=
  Or.inr (Or.inr (Or.inr (Or.inl ⟨r, e, f, a, b, rfl⟩)))

lemma inv5 (h : Waker) {r : Option Waker} {e f : List Event} {a b : Nat} :
    Inv h ⟨h.data, .table h.table, .rdone, .t0, r, e, f, a, b⟩ :=
  Or.inr (Or.inr (Or.inr (Or.inr (Or.inl ⟨r, e, f, a, b, rfl⟩))))

lemma inv6 (h : Waker) {d : Nat} {v : VPtr} {e f : List Event} {a b : Nat} :
    Inv h ⟨d, v, .rdone, .t1, some h, e, f, a, b⟩ :=
  Or.inr (Or.inr (Or.inr (Or.inr (Or.inr (Or.inl ⟨d, v, e, f, a, b, rfl⟩)))))

lemma inv7 (h : Waker) {d : Nat} {v : VPtr} {r : Option Waker} {e f : List Event} {a b : Nat}
    (hw : Event.wakeE h ∈ e) :
    Inv h ⟨d, v, .rdone, .t1, r, e, f, a, b⟩ :=
  Or.inr (Or.inr (Or.inr (Or.inr (Or.inr (Or.inr (Or.inl ⟨d, v, r, e, f, a, b, hw, rfl⟩))))))

lemma inv8 (h : Waker) {d : Nat} {r : Option Waker} {e f : List Event} {a b : Nat} :
    Inv h ⟨d, .taking, .r0, .t1, r, e, f, a, b⟩ :=
  Or.inr (Or.inr (Or.inr (Or.inr (Or.inr (Or.inr (Or.inr (Or.inl ⟨d, r, e, f, a, b, rfl⟩)))))))

lemma inv9 (h : Waker) {d : Nat} {r : Option Waker} {e f : List Event} {a b : Nat} :
    Inv h ⟨d, .null, .r0, .tdone, r, e, f, a, b⟩ :=
  Or.inr (Or.inr (Or.inr (Or.inr (Or.inr (Or.inr (Or.inr
    (Or.inr (Or.inl ⟨d, r, e, f, a, b, rfl⟩))))))))

lemma inv10 (h : Waker) {d : Nat} {r : Option Waker} {e f : List Event} {a b : Nat} :
    Inv h ⟨d, .registering, .r1, .tdone, r, e, f, a, b⟩ :=
  Or.inr (Or.inr (Or.inr (Or.inr (Or.inr (Or.inr (Or.inr
    (Or.inr (Or.inr (Or.inl ⟨d, r, e, f, a, b, rfl⟩)))))))))

lemma inv11 (h : Waker) {r : Option Waker} {e f : List Event} {a b : Nat} :
    Inv h ⟨h.data, .registering, .r2, .tdone, r, e, f, a, b⟩ :=
  Or.inr (Or.inr (Or.inr (Or.inr (Or.inr (Or.inr (Or.inr
    (Or.inr (Or.inr (Or.inr (Or.inl ⟨r, e, f, a, b, rfl⟩))))))))))

lemma inv12 (h : Waker) {d : Nat} {r : Option Waker} {e f : List Event} {a b : Nat} :
    Inv h ⟨d, .taking, .r1, .tdone, r, e, f, a, b⟩ :=
  Or.inr (Or.inr (Or.inr (Or.inr (Or.inr (Or.inr (Or.inr
    (Or.inr (Or.inr (Or.inr (Or.inr (Or.inl ⟨d, r, e, f, a, b, rfl⟩)))))))))))

lemma inv13 (h : Waker) {d : Nat} {r : Option Waker} {e f : List Event} {a b : Nat} :
    Inv h ⟨d, .taking, .r2, .tdone, r, e, f, a, b⟩ :=
  Or.inr (Or.inr (Or.inr (Or.inr (Or.inr (Or.inr (Or.inr
    (Or.inr (Or.inr (Or.inr (Or.inr (Or.inr (Or.inl ⟨d, r, e, f, a, b, rfl⟩))))))))))))

lemma inv14 (h : Waker) {d : Nat} {v : VPtr} {r : Option Waker} {e f : List Event} {a b : Nat} :
    Inv h ⟨d, v, .r3, .tdone, r, e, f, a, b⟩ :=
  Or.inr (Or.inr (Or.inr (Or.inr (Or.inr (Or.inr (Or.inr
    (Or.inr (Or.inr (Or.inr (Or.inr (Or.inr (Or.inr
      (Or.inl ⟨d, v, r, e, f, a, b, rfl⟩)))))))))))))

lemma inv15 (h : Waker) {d : Nat} {v : VPtr} {r : Option Waker} {e f : List Event} {a b : Nat}
    (hnl : NoLost h ⟨d, v, .rdone, .tdone, r, e, f, a, b⟩) :
    Inv h ⟨d, v, .rdone, .tdone, r, e, f, a, b⟩ :=
  Or.inr (Or.inr (Or.inr (Or.inr (Or.inr (Or.inr (Or.inr
    (Or.inr (Or.inr (Or.inr (Or.inr (Or.inr (Or.inr
      (Or.inr ⟨d, v, r, e, f, a, b, hnl, rfl⟩)))))))))))))

/-- The invariant is preserved by a step of either thread. -/
lemma inv_step (h : Waker) (wk : Bool) (c : Config) (hc : Inv h c) :
    Inv h (step1 h c) ∧ Inv h (step2 wk c) := by
  rcases hc with ⟨d, r, e, f, a, b, rfl⟩ | ⟨d, u, r, e, f, a, b, rfl⟩ |
    ⟨d, r, e, f, a, b, rfl⟩ | ⟨r, e, f, a, b, rfl⟩ | ⟨r, e, f, a, b, rfl⟩ |
    ⟨d, v, e, f, a, b, rfl⟩ | ⟨d, v, r, e, f, a, b, hw, rfl⟩ | ⟨d, r, e, f, a, b, rfl⟩ |
    ⟨d, r, e, f, a, b, rfl⟩ | ⟨d, r, e, f, a, b, rfl⟩ | ⟨r, e, f, a, b, rfl⟩ |
    ⟨d, r, e, f, a, b, rfl⟩ | ⟨d, r, e, f, a, b, rfl⟩ | ⟨d, v, r, e, f, a, b, rfl⟩ |
    ⟨d, v, r, e, f, a, b, hnl, rfl⟩
  · exact ⟨inv3 h, inv8 h⟩
  · exact ⟨inv3 h, inv8 h⟩
  · exact ⟨inv4 h, inv12 h⟩
  · exact ⟨inv5 h, inv13 h⟩
  · exact ⟨inv5 h, inv6 h⟩
  · exact ⟨inv6 h, inv15 h (Or.inr (Or.inl rfl))⟩
  · exact ⟨inv7 h hw, inv15 h (Or.inl hw)⟩
  · exact ⟨inv7 h (by simp), inv9 h⟩
  · exact ⟨inv10 h, inv9 h⟩
  · exact ⟨inv11 h, inv10 h⟩
  · exact ⟨inv15 h (Or.inr (Or.inr ⟨rfl, rfl⟩)), inv11 h⟩
  · exact ⟨inv13 h, inv12 h⟩
  · exact ⟨inv14 h, inv13 h⟩
  · exact ⟨inv15 h (Or.inl (by simp)), inv14 h⟩
  · exact ⟨inv15 h hnl, inv15 h hnl⟩

/-- The invariant holds in every initial configuration with an unlocked
slot. -/
lemma inv_init (h : Waker) (d : Nat) (v : VPtr) (r : Option Waker) (e f : List Event)
    (a b : Nat) (hv : ValidV v) : Inv h ⟨d, v, .r0, .t0, r, e, f, a, b⟩ := by
  obtain rfl | ⟨u, rfl⟩ := hv
  · exact inv1 h
  · exact inv2 h

/-- The invariant is preserved by running any schedule. -/
lemma inv_run (h : Waker) (wk : Bool) :
    ∀ (sched : List Bool) (c : Config), Inv h c → Inv h (run h wk sched c)
  | [], _, hc => hc
  | x :: l, c, hc => by
    cases x
    · exact inv_run h wk l (step2 wk c) (inv_step h wk c hc).2
    · exact inv_run h wk l (step1 h c) (inv_step h wk c hc).1

/-- Once both threads have finished, the invariant yields `NoLost`. -/
lemma inv_done (h : Waker) (c : Config) (hc : Inv h c)
    (h1 : c.pc1 = .rdone) (h2 : c.pc2 = .tdone) : NoLost h c := by
  rcases hc with ⟨d, r, e, f, a, b, rfl⟩ | ⟨d, u, r, e, f, a, b, rfl⟩ |
    ⟨d, r, e, f, a, b, rfl⟩ | ⟨r, e, f, a, b, rfl⟩ | ⟨r, e, f, a, b, rfl⟩ |
    ⟨d, v, e, f, a, b, rfl⟩ | ⟨d, v, r, e, f, a, b, hw, rfl⟩ | ⟨d, r, e, f, a, b, rfl⟩ |
    ⟨d, r, e, f, a, b, rfl⟩ | ⟨d, r, e, f, a, b, rfl⟩ | ⟨r, e, f, a, b, rfl⟩ |
    ⟨d, r, e, f, a, b, rfl⟩ | ⟨d, r, e, f, a, b, rfl⟩ | ⟨d, v, r, e, f, a, b, rfl⟩ |
    ⟨d, v, r, e, f, a, b, hnl, rfl⟩
  · simp at h1
  · simp at h1
  · simp at h1
  · simp at h1
  · simp at h2
  · simp at h2
  · simp at h2
  · simp at h1
  · simp at h1
  · simp at h1
  · simp at h1
  · simp at h1
  · simp at h1
  · simp at h1
  · exact hnl

/-- Claim C4: for any schedule interleaving one `register h` with one
concurrent `take`/`wake`, starting from an unlocked slot, once both threads
have finished either the register thread invoked `h` before returning, or the
taker retrieved a handle equal to `h`, or a clone of `h` is left stored in
the slot for a later `take` to retrieve. -/
theorem no_lost_wakeup_interleaved (h : Waker) (wk : Bool) (sched : List Bool)
    (d : Nat) (v : VPtr) (r : Option Waker) (e f : List Event) (a b : Nat)
    (hv : ValidV v)
    (hd1 : (run h wk sched ⟨d, v, .r0, .t0, r, e, f, a, b⟩).pc1 = .rdone)
    (hd2 : (run h wk sched ⟨d, v, .r0, .t0, r, e, f, a, b⟩).pc2 = .tdone) :
    NoLost h (run h wk sched ⟨d, v, .r0, .t0, r, e, f, a, b⟩) :=
  inv_done h _ (inv_run h wk sched _ (inv_init h d v r e f a b hv)) hd1 hd2

/-- Claim C4, witness. -/
theorem no_lost_wakeup_interleaved_witness :
    NoLost ⟨1, 5⟩
      (run ⟨1, 5⟩ false [true, true, true, false, false]
        ⟨0, .null, .r0, .t0, none, [], [], 0, 0⟩) :=
  no_lost_wakeup_interleaved ⟨1, 5⟩ false [true, true, true, false, false]
    0 .null none [] [] 0 0 (Or.inl rfl) rfl rfl

/-! ## Atomic-access counts

`a1` counts every atomic access the register thread makes to the vtable word
(the locking swap, the publishing compare-exchange — failed or not — and the
failure path's unlocking swap); `a2` counts the taker's (the locking swap and
the unlocking store).  The clone plus data-cell write (`r1`) touches no
atomic. -/

/-- Step-count invariant: the atomic-access counters are determined by the
program counters while a thread runs and bounded once it finishes — between
one and three accesses for `register`, between one and two for
`take`/`wake`. -/
def AInv (c : Config) : Prop :=
  (c.pc1 = .r0 → c.a1 = 0) ∧
  (c.pc1 = .r1 → c.a1 = 1) ∧
  (c.pc1 = .r2 → c.a1 = 1) ∧
  (c.pc1 = .r3 → c.a1 = 2) ∧
  (c.pc1 = .rdone → 1 ≤ c.a1 ∧ c.a1 ≤ 3) ∧
  (c.pc2 = .t0 → c.a2 = 0) ∧
  (c.pc2 = .t1 → c.a2 = 1) ∧
  (c.pc2 = .tdone → 1 ≤ c.a2 ∧ c.a2 ≤ 2)

/-- The step-count invariant is preserved by a step of either thread. -/
lemma ainv_step (h : Waker) (wk : Bool) (c : Config) (hc : AInv c) :
    AInv (step1 h c) ∧ AInv (step2 wk c) := by
  obtain ⟨d, v, p1, p2, r, e, f, a, b⟩ := c
  cases p1 <;> cases p2 <;> cases v <;>
    simp_all [AInv, step1, step2]

/-- The step-count invariant is preserved by running any schedule. -/
lemma ainv_run (h : Waker) (wk : Bool) :
    ∀ (sched : List Bool) (c : Config), AInv c → AInv (run h wk sched c)
  | [], _, hc => hc
  | x :: l, c, hc => by
    cases x
    · exact ainv_run h wk l (step2 wk c) (ainv_step h wk c hc).2
    · exact ainv_run h wk l (step1 h c) (ainv_step h wk c hc).1

/-- Claim C9, counterexample: a `register` that loses its publish
compare-exchange to a racing `take` performs three atomic accesses to the
discriminator word, not one or two — here the schedule runs the register
thread's locking swap, then the taker's losing swap, then the clone, the
failed compare-exchange and the unlocking swap. -/
theorem atomic_steps_three_cex :
    (run ⟨1, 5⟩ false [true, false, true, true, true]
        ⟨0, .null, .r0, .t0, none, [], [], 0, 0⟩).pc1 = .rdone ∧
      (run ⟨1, 5⟩ false [true, false, true, true, true]
        ⟨0, .null, .r0, .t0, none, [], [], 0, 0⟩).a1 = 3 := by
  decide

/-- Claim C9, amended: every operation is loop-free with a bounded number of
atomic accesses to the discriminator word — under any schedule against any
unlocked initial slot, a finished `register` has made between one and three
atomic accesses (three exactly on the racing-taker failure path) and a
finished `take`/`wake` between one and two. -/
theorem atomic_steps_bounded (h : Waker) (wk : Bool) (sched : List Bool)
    (d : Nat) (v : VPtr) (r : Option Waker) (e f : List Event)
    (hd1 : (run h wk sched ⟨d, v, .r0, .t0, r, e, f, 0, 0⟩).pc1 = .rdone)
    (hd2 : (run h wk sched ⟨d, v, .r0, .t0, r, e, f, 0, 0⟩).pc2 = .tdone) :
    (1 ≤ (run h wk sched ⟨d, v, .r0, .t0, r, e, f, 0, 0⟩).a1 ∧
      (run h wk sched ⟨d, v, .r0, .t0, r, e, f, 0, 0⟩).a1 ≤ 3) ∧
    (1 ≤ (run h wk sched ⟨d, v, .r0, .t0, r, e, f, 0, 0⟩).a2 ∧
      (run h wk sched ⟨d, v, .r0, .t0, r, e, f, 0, 0⟩).a2 ≤ 2) := by
  have h0 : AInv ⟨d, v, .r0, .t0, r, e, f, 0, 0⟩ := by simp [AInv]
  have hr := ainv_run h wk sched ⟨d, v, .r0, .t0, r, e, f, 0, 0⟩ h0
  exact ⟨hr.2.2.2.2.1 hd1, hr.2.2.2.2.2.2.2 hd2⟩

/-- Claim C9, amended, witness. -/
theorem atomic_steps_bounded_witness :
    (1 ≤ (run ⟨1, 5⟩ false [true, false, true, true, true]
          ⟨0, .null, .r0, .t0, none, [], [], 0, 0⟩).a1 ∧
        (run ⟨1, 5⟩ false [true, false, true, true, true]
          ⟨0, .null, .r0, .t0, none, [], [], 0, 0⟩).a1 ≤ 3) ∧
      (1 ≤ (run ⟨1, 5⟩ false [true, false, true, true, true]
          ⟨0, .null, .r0, .t0, none, [], [], 0, 0⟩).a2 ∧
        (run ⟨1, 5⟩ false [true, false, true, true, true]
          ⟨0, .null, .r0, .t0, none, [], [], 0, 0⟩).a2 ≤ 2) :=
  atomic_steps_bounded ⟨1, 5⟩ false [true, false, true, true, true]
    0 .null none [] [] rfl rfl

end AtomicPtrWaker
